import Mathlib

/-!
# NYC-Taxi-Analysis — verification of the specified behavior

Shallow embedding of the frontend components of the repository
(`ChartRenderer`, `DataTable`, `DataPreview`, `ChatInterface`, the
`ChatResponse` type) and, where the backend pipeline sources are absent
from the snapshot, spec-modelled components (generation loop, response
cache, response assembly).  JavaScript machine numbers are modelled as
integers (`Int`); numeric-string coercion is modelled for integral
strings, which is exact on the integral data the renderer sorts.
-/

namespace NYC

/-- A JavaScript runtime value as it occurs in result rows: `null`,
`undefined`, a string, or a number (modelled as an integer). -/
inductive Val : Type where
  | vNull : Val
  | vUndefined : Val
  | vStr : String → Val
  | vNum : Int → Val
  deriving DecidableEq, Repr

/-- JS `String(value)` on the values of the model
(`String(null) = "null"`, `String(undefined) = "undefined"`). -/
def jsString : Val → String
  | .vNull => "null"
  | .vUndefined => "undefined"
  | .vStr s => s
  | .vNum n => toString n

/-- Digit-string accumulator for the numeral parser. -/
def digitsAux : List Char → Nat → Option Nat
  | [], acc => some acc
  | c :: cs, acc =>
    if 48 ≤ c.toNat ∧ c.toNat ≤ 57 then digitsAux cs (acc * 10 + (c.toNat - 48)) else none

/-- Integral decimal numerals, optionally negative; `none` for anything
else.  This models JS `Number(string)` on the integral strings the data
contains (floating-point literals are outside the integer model). -/
def parseIntStr (s : String) : Option Int :=
  match s.data with
  | [] => none
  | '-' :: cs => if cs.isEmpty then none else (digitsAux cs 0).map (fun n => -(n : Int))
  | cs => (digitsAux cs 0).map (fun n => (n : Int))

/-- JS `Number(value)` on the values of the model, `none` meaning `NaN`:
`Number(null) = 0`, `Number(undefined) = NaN`, strings parsed when they are
integral numerals.  (`Number("") = 0` in JS; here it parses to `none`,
which agrees after the `|| 0` default of the renderer.) -/
def toNumber : Val → Option Int
  | .vNull => some 0
  | .vUndefined => none
  | .vStr s => parseIntStr s
  | .vNum n => some n

/-- The sort key of the renderer, `Number(v) || 0`: non-coercible values coerce
to `0`. -/
def sortKey (v : Val) : Int := (toNumber v).getD 0

/-- A JS object / result row: association list in property insertion
order. -/
abbrev Obj : Type := List (String × Val)

/-- Result rows and grouped records share the same object representation. -/
abbrev Row : Type := Obj

/-- First-match association-list lookup (JS objects have unique keys, so
this is plain property read). -/
def alGet {β : Type} (k : String) : List (String × β) → Option β
  | [] => none
  | (k', v) :: rest => if k' = k then some v else alGet k rest

/-- JS property read `row[col]`: a missing property reads as `undefined`. -/
def rowGet (r : Row) (c : String) : Val := (alGet c r).getD .vUndefined

/-- JS property assignment `o[k] = v`: update in place when the key
exists, else append (insertion order preserved). -/
def objSet (o : Obj) (k : String) (v : Val) : Obj :=
  match o with
  | [] => [(k, v)]
  | (k', v') :: rest => if k' = k then (k, v) :: rest else (k', v') :: objSet rest k v

/-- Modify the value stored at a key, leaving the list unchanged when the
key is absent. -/
def alModify {β : Type} (k : String) (f : β → β) : List (String × β) → List (String × β)
  | [] => []
  | (k', v) :: rest => if k' = k then (k', f v) :: rest else (k', v) :: alModify k f rest

/-- `Array.from(new Set(l))`: deduplicate keeping first occurrences in
encounter order. -/
def dedupFirst (l : List String) : List String :=
  l.foldl (fun acc s => if s ∈ acc then acc else acc ++ [s]) []

/-- The `config` prop of the frontend `ChartRenderer`
(src/unnamed/part_002): `type` is the union of the literals "line" and "bar", modelled as
its literal strings; the axis fields are bare column-name strings (the
renderer config has no dtype hints and no sort flags). -/
structure ChartConfig where
  type : String
  x : String
  y : String
  series : Option String := none
  title : Option String := none
  deriving DecidableEq, Repr

/-- JS truthiness of `config.series` in `if (config.series)`: absent and
empty-string series both take the no-series branch. -/
def seriesCol (cfg : ChartConfig) : Option String :=
  match cfg.series with
  | some sc => if sc = "" then none else some sc
  | none => none

/-- `Array.from(new Set(data.map(d => String(d[config.series]))))`. -/
def seriesValuesOf (sc : String) (data : List Row) : List String :=
  dedupFirst (data.map (fun r => jsString (rowGet r sc)))

/-- `grouped[xValue] = { [config.x]: xValue }` followed by
`seriesValues.forEach(s => grouped[xValue][s] = 0)`. -/
def initObj (xc xv : String) (svals : List String) : Obj :=
  svals.foldl (fun o s => objSet o s (.vNum 0)) [(xc, .vStr xv)]

/-- One iteration of the grouping `data.forEach(row => ...)` body of the renderer:
create the x-group with all series initialized to `0` when absent,
then `grouped[xValue][seriesValue] = yValue`. -/
def pivotStep (xc yc sc : String) (svals : List String)
    (g : List (String × Obj)) (r : Row) : List (String × Obj) :=
  alModify (jsString (rowGet r xc))
    (fun o => objSet o (jsString (rowGet r sc)) (rowGet r yc))
    (match alGet (jsString (rowGet r xc)) g with
     | some _ => g
     | none => g ++ [(jsString (rowGet r xc), initObj xc (jsString (rowGet r xc)) svals)])

/-- The series pivot of the renderer: long-to-wide grouping of `data` keyed by
the stringified x value. -/
def pivotGrouped (xc yc sc : String) (data : List Row) : List (String × Obj) :=
  data.foldl (pivotStep xc yc sc (seriesValuesOf sc data)) []

/-- The pivoted cell for a given (x value, series value) pair, `none` when
the group or the property is absent. -/
def pivotCell (xc yc sc : String) (data : List Row) (xv sv : String) : Option Val :=
  (alGet xv (pivotGrouped xc yc sc data)).bind (fun o => alGet sv o)

/-- `Number(a[config.x]) || 0`, the comparator key of the renderer's
`.sort((a, b) => aVal - bVal)`. -/
def sortKeyObj (xc : String) (o : Obj) : Int := sortKey (rowGet o xc)

/-- The ascending comparator as a boolean relation; JS
`Array.prototype.sort` is a stable sort (ES2019), modelled by
`List.mergeSort`. -/
def leX (xc : String) (a b : Obj) : Bool := sortKeyObj xc a ≤ sortKeyObj xc b

/-- The records the renderer builds before its `.sort(...)` call: the
pivoted groups (series case) or the projected `{x, y}` records
(no-series case, where an object literal with `config.x = config.y`
keeps the later property, hence the nested `objSet`). -/
def preSortData (cfg : ChartConfig) (data : List Row) : List Obj :=
  match seriesCol cfg with
  | some sc => (pivotGrouped cfg.x cfg.y sc data).map Prod.snd
  | none => data.map (fun r => objSet (objSet [] cfg.x (rowGet r cfg.x)) cfg.y (rowGet r cfg.y))

/-- The `chartData` array the renderer feeds to Recharts: both branches
end in `.sort((a, b) => (Number(a[config.x]) || 0) - (Number(b[config.x]) || 0))`. -/
def chartData (cfg : ChartConfig) (data : List Row) : List Obj :=
  (preSortData cfg data).mergeSort (leX cfg.x)

/-- The two chart shapes the renderer can emit. -/
inductive RenderedKind : Type where
  | line : RenderedKind
  | bar : RenderedKind
  deriving DecidableEq, Repr

/-- The kind dispatch of the renderer: `if (config.type === "line") ... else
<BarChart>` — every kind other than "line" renders as a bar chart. -/
def renderKind (t : String) : RenderedKind := if t = "line" then .line else .bar

/-- The chart-kind union of the `ChatResponse` type
(src/unnamed/part_000). -/
def chatResponseKinds : List String :=
  ["line", "bar", "scatter", "hist", "box", "heatmap", "none"]

/-- The rows of `data` whose stringified x and series values match the
given pair — the rows that write the (x, series) pivot cell. -/
def matchRows (xc sc : String) (data : List Row) (xv sv : String) : List Row :=
  data.filter (fun r => jsString (rowGet r xc) == xv && jsString (rowGet r sc) == sv)

/-! CSV export (`DataTable.tsx`, `downloadCSV`) -/

/-- True when an exported cell value must be quoted: it contains a comma,
a double quote, or a newline. -/
def needsQuote (s : String) : Bool :=
  s.data.any (fun c => c = ',' || c = '"' || c = '\n')

/-- `stringValue.replace(/"/g, '""')` at the character level. -/
def escQuotes : List Char → List Char
  | [] => []
  | c :: cs => if c = '"' then '"' :: '"' :: escQuotes cs else c :: escQuotes cs

/-- One exported CSV cell: `null`/`undefined` become the empty string, a
value containing a comma, quote or newline is wrapped in double quotes
with inner quotes doubled, every other value is emitted verbatim. -/
def csvField (v : Val) : List Char :=
  match v with
  | .vNull => []
  | .vUndefined => []
  | v =>
    let s := jsString v
    if needsQuote s then '"' :: (escQuotes s.data ++ ['"']) else s.data

/-- The string a standard CSV parser should yield back for a cell:
`null`/`undefined` export as the empty string, anything else as its JS
string. -/
def cellString (v : Val) : String :=
  match v with
  | .vNull => ""
  | .vUndefined => ""
  | v => jsString v

/-- `allColumns.map(col => ...).join(',')` for one data row. -/
def csvLine (cols : List String) (r : Row) : List Char :=
  match cols with
  | [] => []
  | [c] => csvField (rowGet r c)
  | c :: cs => csvField (rowGet r c) ++ ',' :: csvLine cs r

/-- `allColumns.join(',')` — the header row; column names are NOT
escaped. -/
def headerLine (cols : List String) : List Char :=
  match cols with
  | [] => []
  | [c] => c.data
  | c :: cs => c.data ++ ',' :: headerLine cs

/-- `downloadCSV`: columns are the keys of the first row; the content is the
header and one line per row joined with `\n`.  `none` models the early
return on an empty dataset. -/
def renderCSV (rows : List Row) : Option String :=
  match rows with
  | [] => none
  | r0 :: _ =>
    let cols := r0.map Prod.fst
    some (String.mk (headerLine cols ++ (rows.map (fun r => '\n' :: csvLine cols r)).flatten))

/-- The grid of cell strings a correct round-trip must recover: the
column names, then per row the exported string of each cell. -/
def csvGrid (rows : List Row) (cols : List String) : List (List String) :=
  cols :: rows.map (fun r => cols.map (fun c => cellString (rowGet r c)))

/-- Standard CSV scanner.  Outside quotes (`inQ = false`): `,` ends a
field, `\n` ends a record, `"` opens a quoted field, anything else is
field text.  Inside quotes (`inQ = true`): `""` is a literal quote, a
lone `"` closes the field, anything else (newlines included) is field
text. -/
def scanCSV : List Char → Bool → List Char → List String → List (List String)
  | [], _, field, fields => [fields ++ [String.mk field]]
  | '"' :: '"' :: rest, true, field, fields => scanCSV rest true (field ++ ['"']) fields
  | '"' :: rest, true, field, fields => scanCSV rest false field fields
  | c :: rest, true, field, fields => scanCSV rest true (field ++ [c]) fields
  | c :: rest, false, field, fields =>
    if c = ',' then scanCSV rest false [] (fields ++ [String.mk field])
    else if c = '\n' then (fields ++ [String.mk field]) :: scanCSV rest false [] []
    else if c = '"' then scanCSV rest true field fields
    else scanCSV rest false (field ++ [c]) fields

/-- Standard (RFC-4180-style, `\n`-delimited) CSV parsing of a whole
document. -/
def parseCSV (s : String) : List (List String) := scanCSV s.data false [] []

/-! The response payload type (`src/unnamed/part_000`) and the message
display (`MessageList.tsx`, `ChatInterface.tsx`) -/

/-- An axis descriptor object of the `ChatResponse` chart union. -/
structure AxisDescr where
  col : String
  dtype : Option String := none
  sort : Option Bool := none
  deriving DecidableEq, Repr

/-- `x`/`y` accept either a bare column-name string or a descriptor
object. -/
inductive AxisField : Type where
  | name (s : String) : AxisField
  | descr (d : AxisDescr) : AxisField
  deriving DecidableEq, Repr

/-- The `top_k` directive of the `ChatResponse` chart union (the source
field `by` is a Lean keyword and is spelled `rank_by` here). -/
structure TopK where
  col : Option String := none
  k : Option Nat := none
  rank_by : Option String := none
  order : Option String := none
  deriving DecidableEq, Repr

/-- The `chart` field of `ChatResponse`: the structured chart
specification. -/
structure ChartSpecJson where
  type : String
  title : Option String := none
  x : AxisField
  y : AxisField
  series : Option String := none
  top_k : Option TopK := none
  orientation : Option String := none
  stacked : Option Bool := none
  max_points : Option Nat := none
  deriving DecidableEq, Repr

/-- The `mode` union of `ChatResponse`:
`'rag' | 'template' | 'sql' | 'error'`. -/
inductive Mode : Type where
  | rag : Mode
  | template : Mode
  | sql : Mode
  | error : Mode
  deriving DecidableEq, Repr

/-- The `ChatResponse` payload type (src/unnamed/part_000). -/
structure ChatResponse where
  answer : String
  sql : Option String := none
  data : Option (List Row) := none
  data_preview : Option (List Row) := none
  chart : Option ChartSpecJson := none
  chart_image_url : Option String := none
  sources : Option (List String) := none
  mode : Mode
  cached : Option Bool := none
  deriving DecidableEq, Repr

/-- A chat transcript message (`ChatInterface.tsx` / `MessageList.tsx`). -/
structure Message where
  id : String
  role : String
  content : String
  sql : Option String := none
  data : Option (List Row) := none
  data_preview : Option (List Row) := none
  chart : Option ChartSpecJson := none
  chart_image_url : Option String := none
  sources : Option (List String) := none
  mode : Option String := none
  cached : Option Bool := none
  deriving DecidableEq, Repr

/-- JS truthiness of an optional string: absent and empty are falsy. -/
def strTruthy : Option String → Bool
  | some s => !(s == "")
  | none => false

/-- The assistant message built in the `catch` branch of `handleSubmit`
(`ChatInterface.tsx`): only the error text and the error mode, no other
field. -/
def errorMessage (idStr errMsg : String) : Message :=
  { id := idStr, role := "assistant", content := "Error: " ++ errMsg, mode := some "error" }

/-- The assistant message built in the success branch of `handleSubmit`:
every payload field copied from the response. -/
def responseMessage (idStr : String) (r : ChatResponse) : Message :=
  { id := idStr, role := "assistant", content := r.answer, sql := r.sql, data := r.data,
    data_preview := r.data_preview, chart := r.chart, chart_image_url := r.chart_image_url,
    sources := r.sources,
    mode := some (match r.mode with
      | .rag => "rag" | .template => "template" | .sql => "sql" | .error => "error"),
    cached := r.cached }

/-- `MessageList.tsx`: the chart image is shown when `chart_image_url` is
truthy. -/
def showsImage (m : Message) : Bool := strTruthy m.chart_image_url

/-- `MessageList.tsx`: the client-side `ChartRenderer` is mounted when
`chart` is present and `chart_image_url` is not truthy. -/
def showsClientChart (m : Message) : Bool := m.chart.isSome && !(strTruthy m.chart_image_url)

/-! Data preview (`src/unnamed/part_001`, `ChatInterface.tsx`) -/

/-- The `/data-preview` response shape. -/
structure PreviewData where
  columns : List String
  data : List Row
  row_count : Nat
  error : Option String := none
  deriving DecidableEq, Repr

/-- What the `DataPreview` component renders. -/
inductive PreviewView : Type where
  | hidden : PreviewView
  | loadingView : PreviewView
  | table (pd : PreviewData) : PreviewView
  deriving DecidableEq, Repr

/-- The render decision of `DataPreview` (src/unnamed/part_001): while
loading, the toggle/loading view; on a component fetch error or an error
field in the payload, `null` (nothing, no error surfaced); on a missing
or empty payload, `null`; otherwise the table. -/
def dataPreviewRender (loading : Bool) (err : Option String) (pd : Option PreviewData) :
    PreviewView :=
  if loading then .loadingView
  else if strTruthy err || strTruthy (pd.bind PreviewData.error) then .hidden
  else
    match pd with
    | none => .hidden
    | some p => if p.data.isEmpty then .hidden else .table p

/-- Outcome of the preview fetch in `ChatInterface.tsx`: HTTP success, a
non-ok HTTP status, or a thrown network error. -/
inductive FetchOutcome : Type where
  | ok (pd : PreviewData) : FetchOutcome
  | httpError : FetchOutcome
  | networkError : FetchOutcome
  deriving DecidableEq, Repr

/-- The `ChatInterface` state touched by the preview fetch. -/
structure PreviewState where
  previewData : Option PreviewData := none
  previewLoading : Bool := true
  chatError : String := ""
  messages : List Message := []
  deriving DecidableEq, Repr

/-- `fetchPreview` in `ChatInterface.tsx`: store the payload only when
`response.ok`; on any failure do nothing (the catch body is empty); in
all cases clear the loading flag. -/
def fetchPreviewUpdate (st : PreviewState) : FetchOutcome → PreviewState
  | .ok pd => { st with previewData := some pd, previewLoading := false }
  | .httpError => { st with previewLoading := false }
  | .networkError => { st with previewLoading := false }

/-- The welcome-message preview toggle of `MessageList.tsx`
(src/unnamed/part_003 line 68): rendered when the message is the welcome
message, a preview payload is present and loading is over —
`message.id === "welcome" && previewData && !previewLoading` — with no
check of the payload error field. -/
def messageListShowsPreview (isWelcomeMsg : Bool) (pd : Option PreviewData)
    (loading : Bool) : Bool :=
  isWelcomeMsg && pd.isSome && !loading

/-! Spec-modelled backend components.  The backend sources
(`backend/services/llm_pipeline.py`, `backend/scripts/validation.py`,
`backend/scripts/chart_renderer.py`, the orchestrator and its cache) are
not part of the repository snapshot; the following definitions are
modelled from the spec (sections 4.1, 4.4, 4.5, 7, and the configuration
table) and are used only for the claims about those components. -/

/-- Modelled from the spec: "ChartArtifact: either a rendered image
reference or a structured series payload" — the renderer output
contract (spec section 4.4), a tagged either-or. -/
inductive ChartArtifact : Type where
  | image (url : String) : ChartArtifact
  | clientPayload (spec : ChartSpecJson) : ChartArtifact
  deriving DecidableEq, Repr

/-- Modelled from the spec: response assembly attaches the chart artifact
to the payload — an image reference populates `chart_image_url`, a
structured payload populates `chart`, and no artifact populates
neither. -/
def attachChart (r : ChatResponse) : Option ChartArtifact → ChatResponse
  | none => { r with chart := none, chart_image_url := none }
  | some (.image url) => { r with chart := none, chart_image_url := some url }
  | some (.clientPayload spec) => { r with chart := some spec, chart_image_url := none }

/-- Modelled from the spec: the non-error mode tags of a successfully
assembled response. -/
inductive SuccessMode : Type where
  | rag : SuccessMode
  | template : SuccessMode
  | sql : SuccessMode
  deriving DecidableEq, Repr

/-- The mode tag of a successful pipeline outcome. -/
def SuccessMode.toMode : SuccessMode → Mode
  | .rag => .rag
  | .template => .template
  | .sql => .sql

/-- Modelled from the spec: the artifacts of a pipeline run that reached
response assembly (validated query text, rows, preview, sources, the
optional chart artifact, and a non-error mode). -/
structure PipelineSuccess where
  answer : String
  sqlText : String
  rows : List Row
  preview : List Row
  sources : List String
  chart : Option ChartArtifact := none
  mode : SuccessMode
  deriving DecidableEq, Repr

/-- Modelled from the spec: response assembly (spec section 7) — "surfaced
errors produce a PipelineResult with mode = error and a user-facing
message; no partial query/chart artifacts are attached to an error
result"; a success copies its artifacts into the payload. -/
def assembleResult : Except String PipelineSuccess → ChatResponse
  | .error msg => { answer := msg, mode := .error }
  | .ok p =>
    attachChart
      { answer := p.answer, sql := some p.sqlText, data := some p.rows,
        data_preview := some p.preview, sources := some p.sources,
        mode := p.mode.toMode, cached := some false }
      p.chart

/-- Modelled from the spec: retry-budget configuration, "attempts are
capped by configuration (default 3)". -/
structure GenConfig where
  maxAttempts : Nat := 3
  deriving DecidableEq, Repr

/-- Modelled from the spec: the bounded generation/validation retry loop
(spec section 4.1).  `provider i` is the i-th inference call (`none` is a
timeout/transport failure, which consumes an attempt); `validate` returns
the reason list, empty meaning valid.  The pair returned is (number of
provider calls performed, validated artifact or `none` for terminal
failure).  Structural recursion on the remaining budget: the loop
terminates by construction. -/
def genLoopAux (provider : Nat → Option String) (validate : String → List String) :
    Nat → Nat → Nat × Option String
  | 0, calls => (calls, none)
  | fuel + 1, calls =>
    match provider calls with
    | none => genLoopAux provider validate fuel (calls + 1)
    | some raw =>
      if validate raw = [] then (calls + 1, some raw)
      else genLoopAux provider validate fuel (calls + 1)

/-- Modelled from the spec: a full generation loop run under a
configuration. -/
def generationLoop (cfg : GenConfig) (provider : Nat → Option String)
    (validate : String → List String) : Nat × Option String :=
  genLoopAux provider validate cfg.maxAttempts 0

/-- Modelled from the spec: the response cache key, "a normalized form of
(question text, schema version)". -/
def cacheKey (q sv : String) : String := q.trim.toLower ++ "#" ++ sv

/-- Modelled from the spec: the process-wide response cache. -/
structure CacheState where
  entries : List (String × ChatResponse) := []
  deriving DecidableEq, Repr

/-- Modelled from the spec: the orchestrator cache discipline (spec
section 4.5) — a hit returns the stored result with the cache-hit flag
set and performs no work; a miss runs `compute` (the full pipeline,
returning a payload and the amount of generation/execution/rendering work
performed) and stores the result.  Returns (payload, new cache, work
performed). -/
def orchestrate (compute : String → String → ChatResponse × Nat) (st : CacheState)
    (q sv : String) : ChatResponse × CacheState × Nat :=
  match alGet (cacheKey q sv) st.entries with
  | some r => ({ r with cached := some true }, st, 0)
  | none =>
    let rw := compute q sv
    (rw.1, ⟨(cacheKey q sv, rw.1) :: st.entries⟩, rw.2)

/-! Concrete inputs used by witnesses and counterexamples -/

/-- The spec section 8 pivot example: rows
(x=1, s=A, y=5), (x=1, s=A, y=7), (x=1, s=B, y=2). -/
def specExampleRows : List Row :=
  [[("x", Val.vNum 1), ("s", Val.vStr "A"), ("y", Val.vNum 5)],
   [("x", Val.vNum 1), ("s", Val.vStr "A"), ("y", Val.vNum 7)],
   [("x", Val.vNum 1), ("s", Val.vStr "B"), ("y", Val.vNum 2)]]

/-- A series chart config over `specExampleRows`. -/
def specExampleCfg : ChartConfig := { type := "bar", x := "x", y := "y", series := some "s" }

/-- Rows with one missing (x, series) pair: (2, "A") has no row. -/
def gapRows : List Row :=
  [[("x", Val.vNum 1), ("s", Val.vStr "A"), ("y", Val.vNum 5)],
   [("x", Val.vNum 2), ("s", Val.vStr "B"), ("y", Val.vNum 3)]]

/-- A no-series config on columns `x`/`y`. -/
def mixedCfg : ChartConfig := { type := "line", x := "x", y := "y" }

/-- Rows whose x values mix a non-coercible string with a negative
numeral: encounter order is "apple" before "-3". -/
def mixedRows : List Row :=
  [[("x", Val.vStr "apple"), ("y", Val.vNum 1)],
   [("x", Val.vStr "-3"), ("y", Val.vNum 2)]]

/-- A single-row dataset whose only column name contains a comma. -/
def commaColRows : List Row := [[("a,b", Val.vNum 1)]]

/-- A dataset exercising every CSV escaping case: a null cell, a cell
with a comma, a cell with quotes, a cell with a newline, a plain cell. -/
def csvDemoRows : List Row :=
  [[("name", Val.vStr "alpha, beta"), ("note", Val.vStr "say \"hi\""), ("n", Val.vNum 3)],
   [("name", Val.vNull), ("note", Val.vStr "two\nlines"), ("n", Val.vNum (-1))]]

/-- Rows whose x values are both non-coercible: the sort keys tie at 0. -/
def tieRows : List Row :=
  [[("x", Val.vStr "apple"), ("y", Val.vNum 1)],
   [("x", Val.vStr "banana"), ("y", Val.vNum 2)]]

/-- The projected record of the first `tieRows` row. -/
def tieObjA : Obj := [("x", Val.vStr "apple"), ("y", Val.vNum 1)]

/-- The projected record of the second `tieRows` row. -/
def tieObjB : Obj := [("x", Val.vStr "banana"), ("y", Val.vNum 2)]

/-- A preview payload carrying an error field. -/
def previewErrData : PreviewData :=
  { columns := ["a"], data := [[("a", Val.vNum 1)]], row_count := 1, error := some "db locked" }

/-- A minimal successful response used as an assembly base. -/
def baseResp : ChatResponse := { answer := "ok", mode := Mode.rag }

/-- A concrete pipeline computation used by the cache witness: it reports
7 units of generation/execution/rendering work. -/
def demoCompute : String → String → ChatResponse × Nat :=
  fun q _ => ({ answer := "answer to " ++ q, mode := Mode.rag, cached := some false }, 7)

/-! Association-list and object lemmas -/

theorem alGet_append {β : Type} (k : String) (l l' : List (String × β)) :
    alGet k (l ++ l') = (alGet k l).or (alGet k l') := by
  induction l with
  | nil => simp [alGet]
  | cons p rest ih =>
    obtain ⟨k', v⟩ := p
    by_cases h : k' = k <;> simp [alGet, h, ih]

theorem alGet_alModify {β : Type} (k k' : String) (f : β → β) (l : List (String × β)) :
    alGet k (alModify k' f l) = if k' = k then (alGet k l).map f else alGet k l := by
  induction l with
  | nil => by_cases h : k' = k <;> simp [alGet, alModify, h]
  | cons p rest ih =>
    obtain ⟨k₀, v⟩ := p
    by_cases h0 : k₀ = k'
    · subst h0
      by_cases h1 : k₀ = k <;> simp [alGet, alModify, h1]
    · by_cases h1 : k₀ = k
      · subst h1
        have h2 : ¬k' = k₀ := fun hh => h0 hh.symm
        simp [alGet, alModify, h0, h2]
      · simp [alGet, alModify, h0, h1, ih]

theorem alGet_objSet_self (o : Obj) (k : String) (v : Val) :
    alGet k (objSet o k v) = some v := by
  induction o with
  | nil => simp [objSet, alGet]
  | cons p rest ih =>
    obtain ⟨k', v'⟩ := p
    by_cases h : k' = k <;> simp [objSet, alGet, h, ih]

theorem alGet_objSet_other (o : Obj) (k k' : String) (v : Val) (h : ¬k = k') :
    alGet k' (objSet o k v) = alGet k' o := by
  induction o with
  | nil => simp [objSet, alGet, h]
  | cons p rest ih =>
    obtain ⟨k₀, v₀⟩ := p
    by_cases h0 : k₀ = k <;> by_cases h1 : k₀ = k' <;> simp_all [objSet, alGet]

theorem alGet_eq_none_iff {β : Type} (k : String) (l : List (String × β)) :
    alGet k l = none ↔ k ∉ l.map Prod.fst := by
  induction l with
  | nil => simp [alGet]
  | cons p rest ih =>
    obtain ⟨k', v⟩ := p
    by_cases h : k' = k
    · subst h
      simp [alGet]
    · rw [List.map_cons, List.mem_cons, not_or]
      simp only [alGet, h, if_false, ih]
      exact ⟨fun hh => ⟨fun he => h he.symm, hh⟩, fun hh => hh.2⟩

theorem alGet_isSome_iff {β : Type} (k : String) (l : List (String × β)) :
    (alGet k l).isSome = true ↔ k ∈ l.map Prod.fst := by
  cases h : alGet k l with
  | none => simp [(alGet_eq_none_iff k l).mp h]
  | some v =>
    simp only [Option.isSome_some, true_iff]
    by_contra hk
    rw [(alGet_eq_none_iff k l).mpr hk] at h
    exact Option.noConfusion h

theorem alModify_map_fst {β : Type} (k : String) (f : β → β) (l : List (String × β)) :
    (alModify k f l).map Prod.fst = l.map Prod.fst := by
  induction l with
  | nil => simp [alModify]
  | cons p rest ih =>
    obtain ⟨k', v⟩ := p
    by_cases h : k' = k <;> simp [alModify, h, ih]

/-! Series-pivot lemmas -/

theorem alGet_foldl_objSet (svals : List String) (o : Obj) (k : String) :
    alGet k (svals.foldl (fun acc s => objSet acc s (Val.vNum 0)) o)
      = if k ∈ svals then some (Val.vNum 0) else alGet k o := by
  induction svals generalizing o with
  | nil => simp
  | cons s rest ih =>
    rw [List.foldl_cons, ih]
    by_cases hm : k ∈ rest
    · simp [hm]
    · by_cases hs : s = k
      · subst hs
        simp [hm, alGet_objSet_self]
      · have hks : ¬k = s := fun hh => hs hh.symm
        simp [hm, hks, alGet_objSet_other _ _ _ _ hs]

theorem initObj_get (xc xv k : String) (svals : List String) :
    alGet k (initObj xc xv svals)
      = if k ∈ svals then some (Val.vNum 0)
        else if xc = k then some (Val.vStr xv) else none := by
  rw [initObj, alGet_foldl_objSet]
  by_cases hm : k ∈ svals <;> simp [hm, alGet]

theorem mem_foldl_dedup (l : List String) (acc : List String) (s : String) :
    s ∈ l.foldl (fun acc t => if t ∈ acc then acc else acc ++ [t]) acc
      ↔ s ∈ acc ∨ s ∈ l := by
  induction l generalizing acc with
  | nil => simp
  | cons t rest ih =>
    rw [List.foldl_cons, ih]
    by_cases ht : t ∈ acc
    · simp only [ht, if_true, List.mem_cons]
      constructor
      · rintro (h | h)
        · exact Or.inl h
        · exact Or.inr (Or.inr h)
      · rintro (h | h | h)
        · exact Or.inl h
        · exact Or.inl (h ▸ ht)
        · exact Or.inr h
    · simp only [ht, if_false, List.mem_append, List.mem_singleton, List.mem_cons]
      tauto

theorem mem_dedupFirst (l : List String) (s : String) : s ∈ dedupFirst l ↔ s ∈ l := by
  rw [dedupFirst, mem_foldl_dedup]
  simp

theorem pivotStep_alGet (xc yc sc : String) (svals : List String)
    (g : List (String × Obj)) (r : Row) (xv : String) :
    alGet xv (pivotStep xc yc sc svals g r)
      = if jsString (rowGet r xc) = xv then
          some (objSet ((alGet xv g).getD (initObj xc xv svals))
            (jsString (rowGet r sc)) (rowGet r yc))
        else alGet xv g := by
  rw [pivotStep]
  cases hx : alGet (jsString (rowGet r xc)) g with
  | some o =>
    simp only [hx]
    rw [alGet_alModify]
    by_cases h : jsString (rowGet r xc) = xv
    · rw [if_pos h, if_pos h]
      rw [h] at hx
      rw [hx]
      rfl
    · rw [if_neg h, if_neg h]
  | none =>
    simp only [hx]
    rw [alGet_alModify, alGet_append]
    by_cases h : jsString (rowGet r xc) = xv
    · rw [if_pos h, if_pos h]
      rw [h] at hx ⊢
      rw [hx]
      simp [alGet]
    · rw [if_neg h, if_neg h]
      have hsing : alGet xv [(jsString (rowGet r xc), initObj xc (jsString (rowGet r xc)) svals)]
          = none := by simp [alGet, h]
      rw [hsing]
      cases alGet xv g <;> rfl

theorem gfold_isSome (xc yc sc : String) (svals : List String) (d : List Row) (xv : String) :
    (alGet xv (d.foldl (pivotStep xc yc sc svals) [])).isSome = true
      ↔ xv ∈ d.map (fun r => jsString (rowGet r xc)) := by
  induction d using List.reverseRecOn with
  | nil => simp [alGet]
  | append_singleton l r ih =>
    rw [List.foldl_append, List.foldl_cons, List.foldl_nil, pivotStep_alGet]
    by_cases h : jsString (rowGet r xc) = xv
    · simp [h]
    · simp only [h, if_false, ih, List.map_append, List.mem_append, List.map_cons,
        List.map_nil, List.mem_singleton, List.mem_cons, List.not_mem_nil, or_false]
      exact ⟨Or.inl, fun hh => hh.resolve_right fun he => h he.symm⟩

theorem gfold_last_write (xc yc sc : String) (svals : List String) (d : List Row)
    (xv sv : String) (lr : Row)
    (h : (matchRows xc sc d xv sv).getLast? = some lr) :
    (alGet xv (d.foldl (pivotStep xc yc sc svals) [])).bind (alGet sv)
      = some (rowGet lr yc) := by
  induction d using List.reverseRecOn generalizing lr with
  | nil => simp [matchRows] at h
  | append_singleton l r ih =>
    rw [matchRows, List.filter_append] at h
    rw [List.foldl_append, List.foldl_cons, List.foldl_nil, pivotStep_alGet]
    by_cases hp : (jsString (rowGet r xc) == xv && jsString (rowGet r sc) == sv) = true
    · rcases (by simpa using hp :
          jsString (rowGet r xc) = xv ∧ jsString (rowGet r sc) = sv) with ⟨hx, hs⟩
      have hfr : List.filter
          (fun r => jsString (rowGet r xc) == xv && jsString (rowGet r sc) == sv) [r]
          = [r] := by simp [List.filter, hp]
      rw [hfr, List.getLast?_concat] at h
      have hrl : r = lr := Option.some.inj h
      subst hrl
      rw [if_pos hx, hs]
      simp [alGet_objSet_self]
    · have hfr : List.filter
          (fun r => jsString (rowGet r xc) == xv && jsString (rowGet r sc) == sv) [r]
          = [] := by simp [List.filter, hp]
      rw [hfr, List.append_nil] at h
      by_cases hx : jsString (rowGet r xc) = xv
      · have hs : ¬jsString (rowGet r sc) = sv := by
          intro hh
          exact hp (by simp [hx, hh])
        rw [if_pos hx]
        have hne : List.filter
            (fun r => jsString (rowGet r xc) == xv && jsString (rowGet r sc) == sv) l
            ≠ [] := by
          intro hh
          rw [hh] at h
          simp at h
        obtain ⟨r0, hr0⟩ := List.exists_mem_of_ne_nil _ hne
        obtain ⟨hmem, hpred⟩ := List.mem_filter.mp hr0
        rcases (by simpa using hpred :
            jsString (rowGet r0 xc) = xv ∧ jsString (rowGet r0 sc) = sv) with ⟨hx0, _⟩
        have hxm : xv ∈ l.map (fun r => jsString (rowGet r xc)) :=
          List.mem_map.mpr ⟨r0, hmem, hx0⟩
        have hsome := (gfold_isSome xc yc sc svals l xv).mpr hxm
        obtain ⟨o, ho⟩ := Option.isSome_iff_exists.mp hsome
        have ihh := ih lr h
        rw [ho] at ihh ⊢
        simp only [Option.some_bind, Option.getD_some] at ihh ⊢
        rw [alGet_objSet_other _ _ _ _ hs]
        exact ihh
      · rw [if_neg hx]
        exact ih lr h

theorem gfold_zero_fill (xc yc sc : String) (svals : List String) (d : List Row)
    (xv sv : String)
    (hx : xv ∈ d.map (fun r => jsString (rowGet r xc)))
    (hs : sv ∈ svals)
    (hm : matchRows xc sc d xv sv = []) :
    (alGet xv (d.foldl (pivotStep xc yc sc svals) [])).bind (alGet sv)
      = some (Val.vNum 0) := by
  induction d using List.reverseRecOn with
  | nil => simp at hx
  | append_singleton l r ih =>
    rw [matchRows, List.filter_append] at hm
    obtain ⟨hm1, hm2⟩ := List.append_eq_nil.mp hm
    have hp : (jsString (rowGet r xc) == xv && jsString (rowGet r sc) == sv) = false := by
      by_contra hh
      rw [Bool.not_eq_false] at hh
      simp [List.filter, hh] at hm2
    rw [List.foldl_append, List.foldl_cons, List.foldl_nil, pivotStep_alGet]
    by_cases hxr : jsString (rowGet r xc) = xv
    · have hsr : ¬jsString (rowGet r sc) = sv := by
        intro hh
        rw [hxr, hh] at hp
        simp at hp
      rw [if_pos hxr]
      cases ho : alGet xv (l.foldl (pivotStep xc yc sc svals) []) with
      | some o =>
        have hxm : xv ∈ l.map (fun r => jsString (rowGet r xc)) :=
          (gfold_isSome xc yc sc svals l xv).mp (by rw [ho]; rfl)
        have ihh := ih hxm hm1
        rw [ho] at ihh
        simp only [Option.some_bind, Option.getD_some] at ihh ⊢
        rw [alGet_objSet_other _ _ _ _ hsr]
        exact ihh
      | none =>
        simp only [Option.some_bind, Option.getD_none]
        rw [alGet_objSet_other _ _ _ _ hsr, initObj_get]
        simp [hs]
    · rw [if_neg hxr]
      have hxm : xv ∈ l.map (fun r => jsString (rowGet r xc)) := by
        rw [List.map_append] at hx
        rcases List.mem_append.mp hx with hh | hh
        · exact hh
        · exfalso
          simp at hh
          exact hxr hh.symm
      exact ih hxm hm1

theorem gfold_keys_nodup (xc yc sc : String) (svals : List String) (d : List Row) :
    ((d.foldl (pivotStep xc yc sc svals) []).map Prod.fst).Nodup := by
  induction d using List.reverseRecOn with
  | nil => simp
  | append_singleton l r ih =>
    rw [List.foldl_append, List.foldl_cons, List.foldl_nil, pivotStep, alModify_map_fst]
    cases ho : alGet (jsString (rowGet r xc)) (l.foldl (pivotStep xc yc sc svals) []) with
    | some o =>
      simp only [ho]
      exact ih
    | none =>
      simp only [ho]
      rw [List.map_append]
      have hk := (alGet_eq_none_iff _ _).mp ho
      simp [List.nodup_append, ih, hk]

/-! Claims C1 and C2: the series pivot -/

/-- C1: for every row list and chart config with a series column, the
series pivot resolves duplicate (x, series) pairs by
last-observed-row-wins — the pivoted cell for (x, series) is the y value
of the last row in input order whose stringified x and series values
match that pair. -/
theorem C1_series_pivot_last_write_wins (cfg : ChartConfig) (sc : String)
    (_hsc : seriesCol cfg = some sc) (data : List Row) (xv sv : String) (lr : Row)
    (hlast : (matchRows cfg.x sc data xv sv).getLast? = some lr) :
    pivotCell cfg.x cfg.y sc data xv sv = some (rowGet lr cfg.y) :=
  gfold_last_write cfg.x cfg.y sc (seriesValuesOf sc data) data xv sv lr hlast

/-- Witness for C1 at the example rows of the spec
(x=1, s=A, y=5), (x=1, s=A, y=7), (x=1, s=B, y=2): the (1, A) cell is 7,
the y value of the later duplicate. -/
theorem C1_series_pivot_last_write_wins_witness :
    (matchRows specExampleCfg.x "s" specExampleRows "1" "A").getLast?
        = some [("x", Val.vNum 1), ("s", Val.vStr "A"), ("y", Val.vNum 7)]
      ∧ pivotCell specExampleCfg.x specExampleCfg.y "s" specExampleRows "1" "A"
        = some (Val.vNum 7) :=
  ⟨by decide,
   (C1_series_pivot_last_write_wins specExampleCfg "s" (by decide) specExampleRows "1" "A"
      [("x", Val.vNum 1), ("s", Val.vStr "A"), ("y", Val.vNum 7)] (by decide)).trans
     (by decide)⟩

/-- C2: for every row list and chart config with a series column,
every pivoted cell for an observed (x value, series value) pair is
present; a pair with no matching input row holds zero, not a missing
value; and the pivot has exactly one group per distinct observed x
value. -/
theorem C2_series_pivot_zero_fill (cfg : ChartConfig) (sc : String)
    (_hsc : seriesCol cfg = some sc) (data : List Row) (xv sv : String)
    (hx : xv ∈ data.map (fun r => jsString (rowGet r cfg.x)))
    (hs : sv ∈ data.map (fun r => jsString (rowGet r sc))) :
    (pivotCell cfg.x cfg.y sc data xv sv).isSome = true
      ∧ (matchRows cfg.x sc data xv sv = []
          → pivotCell cfg.x cfg.y sc data xv sv = some (Val.vNum 0))
      ∧ ((pivotGrouped cfg.x cfg.y sc data).map Prod.fst).Nodup
      ∧ (∀ xv', (alGet xv' (pivotGrouped cfg.x cfg.y sc data)).isSome = true
          ↔ xv' ∈ data.map (fun r => jsString (rowGet r cfg.x))) := by
  have hsv : sv ∈ seriesValuesOf sc data := (mem_dedupFirst _ _).mpr hs
  refine ⟨?_, ?_, gfold_keys_nodup cfg.x cfg.y sc (seriesValuesOf sc data) data,
    fun xv' => gfold_isSome cfg.x cfg.y sc (seriesValuesOf sc data) data xv'⟩
  · by_cases hm : matchRows cfg.x sc data xv sv = []
    · have hz : pivotCell cfg.x cfg.y sc data xv sv = some (Val.vNum 0) :=
        gfold_zero_fill cfg.x cfg.y sc (seriesValuesOf sc data) data xv sv hx hsv hm
      rw [hz]
      rfl
    · obtain ⟨lr, hl⟩ := Option.isSome_iff_exists.mp (List.getLast?_isSome.mpr hm)
      have hlw : pivotCell cfg.x cfg.y sc data xv sv = some (rowGet lr cfg.y) :=
        gfold_last_write cfg.x cfg.y sc (seriesValuesOf sc data) data xv sv lr hl
      rw [hlw]
      rfl
  · intro hm
    exact gfold_zero_fill cfg.x cfg.y sc (seriesValuesOf sc data) data xv sv hx hsv hm

/-- Witness for C2 on rows (x=1, s=A, y=5), (x=2, s=B, y=3): the pair
(x=2, series=A) has no input row and its cell is zero. -/
theorem C2_series_pivot_zero_fill_witness :
    "2" ∈ gapRows.map (fun r => jsString (rowGet r specExampleCfg.x))
      ∧ "A" ∈ gapRows.map (fun r => jsString (rowGet r "s"))
      ∧ matchRows specExampleCfg.x "s" gapRows "2" "A" = []
      ∧ pivotCell specExampleCfg.x specExampleCfg.y "s" gapRows "2" "A"
        = some (Val.vNum 0) :=
  ⟨by decide, by decide, by decide,
   (C2_series_pivot_zero_fill specExampleCfg "s" (by decide) gapRows "2" "A"
      (by decide) (by decide)).2.1 (by decide)⟩


/-! Claim C3: x-axis ordering -/

theorem leX_trans (xc : String) (a b c : Obj) (h1 : leX xc a b = true)
    (h2 : leX xc b c = true) : leX xc a c = true := by
  simp only [leX, decide_eq_true_eq] at h1 h2 ⊢
  exact le_trans h1 h2

theorem leX_total (xc : String) (a b : Obj) : (leX xc a b || leX xc b a) = true := by
  simp only [leX, Bool.or_eq_true, decide_eq_true_eq]
  exact Int.le_total _ _

/-- C3 (amended): the renderer always sorts `chartData` — with or without
a series column — by the numeric coercion of the x field where
non-coercible values coerce to 0 (`Number(x) || 0`); the output is a
permutation of the pivoted/projected records, and ties keep encounter
order (the sort is stable).  The renderer config carries no sort flag
(see `ChartConfig`), so no flag can alter this. -/
theorem C3_chartData_sorted_by_numeric_key (cfg : ChartConfig) (data : List Row) :
    (chartData cfg data).Pairwise (fun a b => sortKeyObj cfg.x a ≤ sortKeyObj cfg.x b)
      ∧ (chartData cfg data).Perm (preSortData cfg data)
      ∧ (∀ a b, leX cfg.x a b = true → [a, b].Sublist (preSortData cfg data)
          → [a, b].Sublist (chartData cfg data)) := by
  refine ⟨?_, List.mergeSort_perm _ _, fun a b hab hsub =>
    List.pair_sublist_mergeSort (leX_trans cfg.x) (leX_total cfg.x) hab hsub⟩
  have hs := List.sorted_mergeSort (leX_trans cfg.x) (leX_total cfg.x) (preSortData cfg data)
  exact hs.imp fun h => of_decide_eq_true h

/-- Witness for C3: the permutation fact on the mixed rows and, on rows
whose keys tie at 0, stability — the tied records stay in encounter
order. -/
theorem C3_chartData_sorted_by_numeric_key_witness :
    (chartData mixedCfg mixedRows).Perm (preSortData mixedCfg mixedRows)
      ∧ [tieObjA, tieObjB].Sublist (chartData mixedCfg tieRows) :=
  ⟨(C3_chartData_sorted_by_numeric_key mixedCfg mixedRows).2.1,
   (C3_chartData_sorted_by_numeric_key mixedCfg tieRows).2.2 tieObjA tieObjB
     (by decide) (by decide)⟩

unseal List.merge List.mergeSort in
/-- C3 (counterexample): on rows whose x values are "apple" then "-3" the
first x value is not numerically coercible, yet the renderer does not
leave the x values in encounter order — it coerces "apple" to 0 and sorts
"-3" first. -/
theorem C3_encounter_order_counterexample :
    toNumber (Val.vStr "apple") = none
      ∧ mixedRows.map (fun r => rowGet r "x") = [Val.vStr "apple", Val.vStr "-3"]
      ∧ (chartData mixedCfg mixedRows).map (fun o => rowGet o "x")
          = [Val.vStr "-3", Val.vStr "apple"]
      ∧ (chartData mixedCfg mixedRows).map (fun o => rowGet o "x")
          ≠ mixedRows.map (fun r => rowGet r "x") :=
  ⟨by decide, by decide, by decide, by decide⟩

/-! Claim C4: chart-kind handling -/

/-- C4 (counterexample): "scatter" is one of the seven `ChatResponse`
chart kinds, is neither of the two renderer kinds, and the renderer
silently renders it as a bar chart — the same output as kind "bar" — not
as a distinct case or an error. -/
theorem C4_kind_fallback_counterexample :
    "scatter" ∈ chatResponseKinds
      ∧ "scatter" ≠ "line"
      ∧ "scatter" ≠ "bar"
      ∧ renderKind "scatter" = RenderedKind.bar
      ∧ renderKind "scatter" = renderKind "bar" :=
  ⟨by decide, by decide, by decide, by decide, by decide⟩

/-- C4 (amended): the renderer config type admits only the kinds line
and bar, and at runtime every kind other than "line" — including the five
other `ChatResponse` kinds — is rendered as a bar chart, a silent
fallback rather than exhaustive handling. -/
theorem C4_renderer_kind_dispatch (t : String) (h : ¬t = "line") :
    renderKind t = RenderedKind.bar := by
  simp [renderKind, h]

/-- Witness for C4 at the kind "heatmap". -/
theorem C4_renderer_kind_dispatch_witness :
    ¬"heatmap" = "line" ∧ renderKind "heatmap" = RenderedKind.bar :=
  ⟨by decide, C4_renderer_kind_dispatch "heatmap" (by decide)⟩


/-! Claim C5: the two chart outputs are mutually exclusive -/

theorem attachChart_mode (r : ChatResponse) (a : Option ChartArtifact) :
    (attachChart r a).mode = r.mode := by
  cases a with
  | none => rfl
  | some art => cases art <;> rfl

/-- C5: response assembly populates at most one of the two chart outputs;
when a chart artifact exists, exactly one is populated; and the message
display never shows the rendered image and the client-side chart
together. -/
theorem C5_chart_outputs_exclusive (r : ChatResponse) (a : Option ChartArtifact) :
    ((attachChart r a).chart.isSome = true
        → (attachChart r a).chart_image_url = none)
      ∧ ((attachChart r a).chart_image_url.isSome = true
        → (attachChart r a).chart = none)
      ∧ (∀ x, a = some x
        → ((attachChart r a).chart.isSome = true
            ∨ (attachChart r a).chart_image_url.isSome = true))
      ∧ (∀ m : Message, showsImage m = true → showsClientChart m = false) := by
  refine ⟨?_, ?_, ?_, ?_⟩
  · cases a with
    | none => intro h; simp [attachChart] at h
    | some art => cases art <;> simp [attachChart]
  · cases a with
    | none => intro h; simp [attachChart] at h
    | some art => cases art <;> simp [attachChart]
  · rintro x rfl
    cases x with
    | image url => right; rfl
    | clientPayload spec => left; rfl
  · intro m h
    simp only [showsImage] at h
    simp [showsClientChart, h]

/-- Witness for C5: attaching an image artifact populates exactly the
image reference. -/
theorem C5_chart_outputs_exclusive_witness :
    (attachChart baseResp (some (ChartArtifact.image "u"))).chart.isSome = true
      ∨ (attachChart baseResp (some (ChartArtifact.image "u"))).chart_image_url.isSome
        = true :=
  (C5_chart_outputs_exclusive baseResp (some (ChartArtifact.image "u"))).2.2.1
    (ChartArtifact.image "u") rfl

/-! Claim C6: error-mode results carry no artifacts -/

/-- C6: an assembled result with mode = error carries only the user-facing
message — no query text, no rows, no chart spec and no chart image; the
frontend catch-path message likewise carries none of them. -/
theorem C6_error_mode_bare (out : Except String PipelineSuccess)
    (h : (assembleResult out).mode = Mode.error) :
    (assembleResult out).sql = none
      ∧ (assembleResult out).data = none
      ∧ (assembleResult out).data_preview = none
      ∧ (assembleResult out).chart = none
      ∧ (assembleResult out).chart_image_url = none
      ∧ (∀ idStr msg, (errorMessage idStr msg).sql = none
          ∧ (errorMessage idStr msg).data = none
          ∧ (errorMessage idStr msg).chart = none
          ∧ (errorMessage idStr msg).chart_image_url = none
          ∧ (errorMessage idStr msg).mode = some "error") := by
  cases out with
  | error msg =>
    exact ⟨rfl, rfl, rfl, rfl, rfl, fun _ _ => ⟨rfl, rfl, rfl, rfl, rfl⟩⟩
  | ok p =>
    exfalso
    rw [assembleResult, attachChart_mode] at h
    cases hp : p.mode <;> rw [hp] at h <;> simp [SuccessMode.toMode] at h

/-- Witness for C6 at a concrete surfaced error. -/
theorem C6_error_mode_bare_witness :
    (assembleResult (Except.error "query generation failed")).sql = none
      ∧ (assembleResult (Except.error "query generation failed")).chart = none
      ∧ (assembleResult (Except.error "query generation failed")).chart_image_url = none :=
  ⟨(C6_error_mode_bare (Except.error "query generation failed") rfl).1,
   (C6_error_mode_bare (Except.error "query generation failed") rfl).2.2.2.1,
   (C6_error_mode_bare (Except.error "query generation failed") rfl).2.2.2.2.1⟩

/-! Claim C7: preview errors -/

/-- C7 (counterexample): an HTTP-ok preview response whose payload
carries an error field is stored by the `ChatInterface` fetch unchanged
— the ok branch never inspects the error field — and the welcome message
then renders its preview toggle: a preview IS shown for an
error-carrying response, so the error is not treated as "no preview
available". -/
theorem C7_error_payload_previewed_counterexample :
    previewErrData.error = some "db locked"
      ∧ fetchPreviewUpdate { } (FetchOutcome.ok previewErrData)
        = { previewData := some previewErrData, previewLoading := false }
      ∧ messageListShowsPreview true (some previewErrData) false = true :=
  ⟨rfl, rfl, rfl⟩

/-- C7 (amended): a preview fetch that fails to arrive (non-ok status or
thrown network error) only clears the loading flag — the payload, the
chat error and the message list are untouched, so it is never surfaced
as a pipeline or request failure — and the standalone `DataPreview`
component renders nothing when its fetch errored or its payload carries
an error field; but the `ChatInterface`/`MessageList` consumer checks
only transport success: it stores any HTTP-ok payload without inspecting
the error field, and the message list shows the preview toggle whenever
a payload is present. -/
theorem C7_preview_error_handling :
    (∀ st : PreviewState,
        fetchPreviewUpdate st FetchOutcome.httpError = { st with previewLoading := false }
          ∧ fetchPreviewUpdate st FetchOutcome.networkError
            = { st with previewLoading := false })
      ∧ (∀ (err : Option String) (pd : Option PreviewData),
          strTruthy err = true ∨ strTruthy (Option.bind pd PreviewData.error) = true
            → dataPreviewRender false err pd = PreviewView.hidden)
      ∧ (∀ (st : PreviewState) (pd : PreviewData),
          fetchPreviewUpdate st (FetchOutcome.ok pd)
            = { st with previewData := some pd, previewLoading := false })
      ∧ (∀ pd : PreviewData, messageListShowsPreview true (some pd) false = true) := by
  refine ⟨fun st => ⟨rfl, rfl⟩, fun err pd h => ?_, fun st pd => rfl, fun pd => rfl⟩
  rcases h with h | h <;> simp [dataPreviewRender, h]

/-- Witness for C7: a network failure only clears the loading flag, and
a payload with an error field renders nothing in `DataPreview`. -/
theorem C7_preview_error_handling_witness :
    fetchPreviewUpdate { } FetchOutcome.networkError
        = { ({ } : PreviewState) with previewLoading := false }
      ∧ dataPreviewRender false none (some previewErrData) = PreviewView.hidden :=
  ⟨(C7_preview_error_handling.1 { }).2,
   C7_preview_error_handling.2.1 none (some previewErrData) (Or.inr (by decide))⟩

/-! Claim C8: the generation loop is bounded and terminates -/

theorem genLoopAux_calls_le (provider : Nat → Option String)
    (validate : String → List String) (fuel calls : Nat) :
    (genLoopAux provider validate fuel calls).1 ≤ calls + fuel := by
  induction fuel generalizing calls with
  | zero => simp [genLoopAux]
  | succ n ih =>
    rw [genLoopAux]
    cases hpc : provider calls with
    | none => exact le_trans (ih (calls + 1)) (by omega)
    | some raw =>
      by_cases hv : validate raw = []
      · simp [hv]
      · simp only [hv, if_false]
        exact le_trans (ih (calls + 1)) (by omega)

theorem genLoopAux_valid (provider : Nat → Option String)
    (validate : String → List String) (fuel calls : Nat) (a : String)
    (h : (genLoopAux provider validate fuel calls).2 = some a) :
    validate a = [] := by
  induction fuel generalizing calls with
  | zero => simp [genLoopAux] at h
  | succ n ih =>
    rw [genLoopAux] at h
    cases hpc : provider calls with
    | none =>
      simp only [hpc] at h
      exact ih (calls + 1) h
    | some raw =>
      simp only [hpc] at h
      by_cases hv : validate raw = []
      · rw [if_pos hv] at h
        have hra : raw = a := by simpa using h
        rw [← hra]
        exact hv
      · rw [if_neg hv] at h
        exact ih (calls + 1) h

/-- C8: a generation loop run performs at most `maxAttempts` provider
calls (and, being a total function, always terminates); it yields either
an artifact that passed validation or a terminal failure; and the
configured default budget is 3. -/
theorem C8_generation_loop_bounded (cfg : GenConfig) (provider : Nat → Option String)
    (validate : String → List String) :
    (generationLoop cfg provider validate).1 ≤ cfg.maxAttempts
      ∧ (∀ a, (generationLoop cfg provider validate).2 = some a → validate a = [])
      ∧ ({ } : GenConfig).maxAttempts = 3 := by
  refine ⟨?_, fun a h => genLoopAux_valid provider validate cfg.maxAttempts 0 a h, rfl⟩
  have := genLoopAux_calls_le provider validate cfg.maxAttempts 0
  simpa using this

/-- Witness for C8: a provider that answers immediately with a valid
artifact stays within the default budget. -/
theorem C8_generation_loop_bounded_witness :
    (generationLoop { } (fun _ => some "SELECT 1") (fun _ => ([] : List String))).1
        ≤ ({ } : GenConfig).maxAttempts
      ∧ (fun _ => ([] : List String)) "SELECT 1" = [] :=
  ⟨(C8_generation_loop_bounded { } (fun _ => some "SELECT 1") (fun _ => [])).1,
   (C8_generation_loop_bounded { } (fun _ => some "SELECT 1") (fun _ => [])).2.1
     "SELECT 1" rfl⟩

/-! Claim C9: cache idempotence -/

/-- C9: when the first of two identical (question, schema-version)
requests misses the cache, the second returns the stored payload
byte-identically except for the cache-hit flag set to true, leaves the
cache unchanged, and performs zero generation/execution/rendering
work. -/
theorem C9_cache_idempotent (compute : String → String → ChatResponse × Nat)
    (st : CacheState) (q sv : String)
    (hmiss : alGet (cacheKey q sv) st.entries = none) :
    (orchestrate compute ((orchestrate compute st q sv).2.1) q sv).1
        = { (orchestrate compute st q sv).1 with cached := some true }
      ∧ (orchestrate compute ((orchestrate compute st q sv).2.1) q sv).2.1
        = (orchestrate compute st q sv).2.1
      ∧ (orchestrate compute ((orchestrate compute st q sv).2.1) q sv).2.2 = 0 := by
  have h1 : orchestrate compute st q sv
      = ((compute q sv).1, ⟨(cacheKey q sv, (compute q sv).1) :: st.entries⟩,
        (compute q sv).2) := by
    rw [orchestrate, hmiss]
  rw [h1]
  have h2 : alGet (cacheKey q sv) ((cacheKey q sv, (compute q sv).1) :: st.entries)
      = some (compute q sv).1 := by
    simp [alGet]
  rw [orchestrate]
  rw [h2]
  exact ⟨rfl, rfl, rfl⟩

/-- Witness for C9 at a concrete computation and an empty cache: the
repeat response equals the first with the cache-hit flag set, and the
repeat performs zero work (the first performed 7 units). -/
theorem C9_cache_idempotent_witness :
    (orchestrate demoCompute
          ((orchestrate demoCompute { } "Top 10 pickup zones" "v1").2.1)
          "Top 10 pickup zones" "v1").1
        = { (orchestrate demoCompute { } "Top 10 pickup zones" "v1").1
            with cached := some true }
      ∧ (orchestrate demoCompute
          ((orchestrate demoCompute { } "Top 10 pickup zones" "v1").2.1)
          "Top 10 pickup zones" "v1").2.2 = 0 :=
  ⟨(C9_cache_idempotent demoCompute { } "Top 10 pickup zones" "v1" rfl).1,
   (C9_cache_idempotent demoCompute { } "Top 10 pickup zones" "v1" rfl).2.2⟩


/-! Claim C10: CSV export and round-trip -/

theorem scanCSV_nil_false (field : List Char) (fields : List String) :
    scanCSV [] false field fields = [fields ++ [String.mk field]] := rfl

theorem scanCSV_comma (rest : List Char) (field : List Char) (fields : List String) :
    scanCSV (',' :: rest) false field fields
      = scanCSV rest false [] (fields ++ [String.mk field]) := rfl

theorem scanCSV_nl (rest : List Char) (field : List Char) (fields : List String) :
    scanCSV ('\n' :: rest) false field fields
      = (fields ++ [String.mk field]) :: scanCSV rest false [] [] := rfl

theorem scanCSV_openq (rest : List Char) (field : List Char) (fields : List String) :
    scanCSV ('"' :: rest) false field fields = scanCSV rest true field fields := by
  simp [scanCSV]

theorem scanCSV_text_false (c : Char) (hc1 : ¬c = ',') (hc2 : ¬c = '"') (hc3 : ¬c = '\n')
    (rest : List Char) (field : List Char) (fields : List String) :
    scanCSV (c :: rest) false field fields = scanCSV rest false (field ++ [c]) fields := by
  simp [scanCSV, hc1, hc2, hc3]

theorem scanCSV_escq (rest : List Char) (field : List Char) (fields : List String) :
    scanCSV ('"' :: '"' :: rest) true field fields
      = scanCSV rest true (field ++ ['"']) fields := rfl

theorem scanCSV_closeq (rest : List Char) (hr : ∀ r', rest ≠ '"' :: r')
    (field : List Char) (fields : List String) :
    scanCSV ('"' :: rest) true field fields = scanCSV rest false field fields := by
  cases rest with
  | nil => rfl
  | cons c rest' =>
    have hc : ¬c = '"' := fun hh => hr rest' (by rw [hh])
    simp [scanCSV, hc]

theorem scanCSV_text_true (c : Char) (hc : ¬c = '"') (rest : List Char)
    (field : List Char) (fields : List String) :
    scanCSV (c :: rest) true field fields = scanCSV rest true (field ++ [c]) fields := by
  simp [scanCSV, hc]


theorem needsQuote_chars (s : String) (h : needsQuote s = false) :
    ∀ c ∈ s.data, ¬c = ',' ∧ ¬c = '"' ∧ ¬c = '\n' := by
  intro c hc
  rw [needsQuote, List.any_eq_false] at h
  have hcc := h c hc
  rw [Bool.not_eq_true, Bool.or_eq_false_iff, Bool.or_eq_false_iff] at hcc
  exact ⟨of_decide_eq_false hcc.1.1, of_decide_eq_false hcc.1.2, of_decide_eq_false hcc.2⟩

theorem cons_ne_quote (c : Char) (hc : ¬c = '"') (l : List Char) :
    ∀ r', (c :: l) ≠ '"' :: r' := by
  intro r' h
  injection h with h1 _
  exact hc h1

theorem nil_ne_quote : ∀ r', ([] : List Char) ≠ '"' :: r' := by
  intro r' h
  exact List.noConfusion h

theorem scanU_text : ∀ (s : List Char),
    (∀ c ∈ s, ¬c = ',' ∧ ¬c = '"' ∧ ¬c = '\n') →
    ∀ (rest field : List Char) (fields : List String),
    scanCSV (s ++ rest) false field fields = scanCSV rest false (field ++ s) fields
  | [], _, rest, field, fields => by simp
  | c :: cs, hs, rest, field, fields => by
    obtain ⟨h1, h2, h3⟩ := hs c (List.mem_cons_self c cs)
    rw [List.cons_append, scanCSV_text_false c h1 h2 h3,
      scanU_text cs (fun c' hc' => hs c' (List.mem_cons_of_mem _ hc')) rest (field ++ [c]) fields,
      List.append_assoc]
    rfl

theorem scanQ_text : ∀ (s : List Char) (rest : List Char), (∀ r', rest ≠ '"' :: r') →
    ∀ (field : List Char) (fields : List String),
    scanCSV (escQuotes s ++ '"' :: rest) true field fields
      = scanCSV rest false (field ++ s) fields
  | [], rest, hr, field, fields => by
    rw [show escQuotes [] = [] from rfl, List.nil_append, scanCSV_closeq rest hr]
    simp
  | c :: cs, rest, hr, field, fields => by
    by_cases hc : c = '"'
    · subst hc
      rw [show escQuotes ('"' :: cs) = '"' :: '"' :: escQuotes cs from by simp [escQuotes],
        List.cons_append, List.cons_append, scanCSV_escq,
        scanQ_text cs rest hr (field ++ ['"']) fields, List.append_assoc]
      rfl
    · rw [show escQuotes (c :: cs) = c :: escQuotes cs from by simp [escQuotes, hc],
        List.cons_append, scanCSV_text_true c hc,
        scanQ_text cs rest hr (field ++ [c]) fields, List.append_assoc]
      rfl

theorem scan_rawfield (s : String) (rest : List Char) (hr : ∀ r', rest ≠ '"' :: r')
    (fields : List String) :
    scanCSV ((if needsQuote s then '"' :: (escQuotes s.data ++ ['"']) else s.data) ++ rest)
        false [] fields
      = scanCSV rest false s.data fields := by
  by_cases hq : needsQuote s = true
  · rw [if_pos hq, List.cons_append, scanCSV_openq, List.append_assoc,
      show (['"'] ++ rest : List Char) = '"' :: rest from rfl,
      scanQ_text s.data rest hr [] fields]
    rfl
  · rw [Bool.not_eq_true] at hq
    rw [if_neg (by simp [hq]), scanU_text s.data (needsQuote_chars s hq) rest [] fields]
    rfl

theorem scan_field (v : Val) (rest : List Char) (hr : ∀ r', rest ≠ '"' :: r')
    (fields : List String) :
    scanCSV (csvField v ++ rest) false [] fields
      = scanCSV rest false (cellString v).data fields := by
  cases v with
  | vNull => rfl
  | vUndefined => rfl
  | vStr s => exact scan_rawfield (jsString (Val.vStr s)) rest hr fields
  | vNum n => exact scan_rawfield (jsString (Val.vNum n)) rest hr fields

theorem scan_line_nl : ∀ (cols : List String), cols ≠ [] → ∀ (r : Row) (rest : List Char)
    (fields : List String),
    scanCSV (csvLine cols r ++ '\n' :: rest) false [] fields
      = (fields ++ cols.map (fun c => cellString (rowGet r c))) :: scanCSV rest false [] []
  | [], h, _, _, _ => absurd rfl h
  | [c], _, r, rest, fields => by
    rw [show csvLine [c] r = csvField (rowGet r c) from rfl,
      scan_field (rowGet r c) ('\n' :: rest) (cons_ne_quote '\n' (by decide) rest) fields,
      scanCSV_nl]
    rfl
  | c :: c2 :: cs, _, r, rest, fields => by
    rw [show csvLine (c :: c2 :: cs) r
        = csvField (rowGet r c) ++ ',' :: csvLine (c2 :: cs) r from rfl,
      List.append_assoc, List.cons_append,
      scan_field (rowGet r c) _ (cons_ne_quote ',' (by decide) _) fields, scanCSV_comma,
      scan_line_nl (c2 :: cs) (by simp) r rest
        (fields ++ [String.mk (cellString (rowGet r c)).data]),
      List.append_assoc]
    rfl

theorem scan_line_eof : ∀ (cols : List String), cols ≠ [] → ∀ (r : Row)
    (fields : List String),
    scanCSV (csvLine cols r) false [] fields
      = [fields ++ cols.map (fun c => cellString (rowGet r c))]
  | [], h, _, _ => absurd rfl h
  | [c], _, r, fields => by
    have h1 : csvLine [c] r = csvField (rowGet r c) ++ [] := by
      rw [List.append_nil]
      rfl
    rw [h1, scan_field (rowGet r c) [] nil_ne_quote fields, scanCSV_nil_false]
    rfl
  | c :: c2 :: cs, _, r, fields => by
    rw [show csvLine (c :: c2 :: cs) r
        = csvField (rowGet r c) ++ ',' :: csvLine (c2 :: cs) r from rfl,
      scan_field (rowGet r c) _ (cons_ne_quote ',' (by decide) _) fields, scanCSV_comma,
      scan_line_eof (c2 :: cs) (by simp) r
        (fields ++ [String.mk (cellString (rowGet r c)).data]),
      List.append_assoc]
    rfl

theorem scan_rows : ∀ (cols : List String), cols ≠ [] → ∀ (r : Row) (rows : List Row),
    scanCSV (csvLine cols r ++ (rows.map (fun r2 => '\n' :: csvLine cols r2)).flatten)
        false [] []
      = (r :: rows).map (fun r2 => cols.map (fun c => cellString (rowGet r2 c)))
  | cols, hcols, r, [] => by
    rw [show (([] : List Row).map (fun r2 => '\n' :: csvLine cols r2)).flatten = [] from rfl,
      List.append_nil, scan_line_eof cols hcols r []]
    simp
  | cols, hcols, r, r2 :: rs => by
    rw [show ((r2 :: rs).map (fun x => '\n' :: csvLine cols x)).flatten
        = '\n' :: (csvLine cols r2 ++ (rs.map (fun x => '\n' :: csvLine cols x)).flatten)
      from by simp,
      scan_line_nl cols hcols r _ [], scan_rows cols hcols r2 rs]
    simp

theorem scan_header_nl : ∀ (cols : List String), cols ≠ [] →
    (∀ c ∈ cols, needsQuote c = false) → ∀ (rest : List Char) (fields : List String),
    scanCSV (headerLine cols ++ '\n' :: rest) false [] fields
      = (fields ++ cols) :: scanCSV rest false [] []
  | [], h, _, _, _ => absurd rfl h
  | [c], _, hclean, rest, fields => by
    rw [show headerLine [c] = c.data from rfl,
      scanU_text c.data (needsQuote_chars c (hclean c (by simp))) ('\n' :: rest) [] fields,
      show (([] : List Char) ++ c.data) = c.data from rfl, scanCSV_nl]
  | c :: c2 :: cs, _, hclean, rest, fields => by
    rw [show headerLine (c :: c2 :: cs) = c.data ++ ',' :: headerLine (c2 :: cs) from rfl,
      List.append_assoc, List.cons_append,
      scanU_text c.data (needsQuote_chars c (hclean c (by simp))) _ [] fields,
      show (([] : List Char) ++ c.data) = c.data from rfl, scanCSV_comma,
      scan_header_nl (c2 :: cs) (by simp)
        (fun c' hc' => hclean c' (List.mem_cons_of_mem _ hc')) rest
        (fields ++ [String.mk c.data]),
      List.append_assoc]
    rfl

/-- C10 (amended): the CSV export emits the column names of the first row
joined by commas, then one line per row with null/undefined as empty,
special cells quoted with doubled inner quotes and all else verbatim (the
definition of `renderCSV`); it round-trips under standard CSV parsing
PROVIDED there is at least one column and no column NAME contains a
comma, double quote or newline — the header is emitted unescaped, so
dirty column names break the round trip (see the counterexample). -/
theorem C10_csv_round_trip (r0 : Row) (rtl : List Row)
    (hcols : r0.map Prod.fst ≠ [])
    (hclean : ∀ c ∈ r0.map Prod.fst, needsQuote c = false) :
    (renderCSV (r0 :: rtl)).map parseCSV
      = some (csvGrid (r0 :: rtl) (r0.map Prod.fst)) := by
  rw [show renderCSV (r0 :: rtl)
      = some (String.mk (headerLine (r0.map Prod.fst)
          ++ ((r0 :: rtl).map (fun r => '\n' :: csvLine (r0.map Prod.fst) r)).flatten))
    from rfl]
  rw [show ((r0 :: rtl).map (fun r => '\n' :: csvLine (r0.map Prod.fst) r)).flatten
      = '\n' :: (csvLine (r0.map Prod.fst) r0
          ++ (rtl.map (fun r => '\n' :: csvLine (r0.map Prod.fst) r)).flatten)
    from by simp]
  show some (scanCSV _ false [] []) = _
  rw [scan_header_nl (r0.map Prod.fst) hcols hclean _ [],
    scan_rows (r0.map Prod.fst) hcols r0 rtl]
  rfl

/-- Witness for C10 at a dataset exercising a null cell, a comma cell, a
quoted cell and a newline cell: parsing the export recovers the grid. -/
theorem C10_csv_round_trip_witness :
    (renderCSV csvDemoRows).map parseCSV
      = some (csvGrid csvDemoRows ["name", "note", "n"]) :=
  C10_csv_round_trip
    [("name", Val.vStr "alpha, beta"), ("note", Val.vStr "say \"hi\""), ("n", Val.vNum 3)]
    [[("name", Val.vNull), ("note", Val.vStr "two\nlines"), ("n", Val.vNum (-1))]]
    (by decide) (by decide)

/-- C10 (counterexample): a dataset whose only column is named `a,b`
exports to `a,b\n1`, which standard CSV parsing reads back as two header
columns — the export does not round-trip as claimed. -/
theorem C10_csv_counterexample :
    renderCSV commaColRows = some "a,b\n1"
      ∧ parseCSV "a,b\n1" = [["a", "b"], ["1"]]
      ∧ csvGrid commaColRows ["a,b"] = [["a,b"], ["1"]]
      ∧ parseCSV "a,b\n1" ≠ csvGrid commaColRows ["a,b"] :=
  ⟨by decide, by decide, by decide, by decide⟩

end NYC
